import Mathlib

/-!
Verification of the reference-data visualization script.

The script loads a seven-column table from a local SQLite store with one
fixed `SELECT ... ORDER BY id ASC` query, renders the result into a static
HTML page by string interpolation (with no HTML-escaping of values), writes
the page UTF-8 encoded to a fixed file, and serves the working directory
over HTTP.  This file embeds the data model, the query, and the renderer as
executable Lean definitions and proves the specified properties about them.
-/

set_option maxHeartbeats 1000000
set_option maxRecDepth 10000

/-! ### Configuration constants (source lines 13-16) -/

def DB_PATH : String := "crypto_refdata.db"

def PORT : Nat := 5555

def HTML_FILE : String := "reference_data.html"

def PAGE_TITLE : String := "Crypto Reference Data"

/-! ### The query (source lines 23-34) and its structured content -/

def query : String := "\nSELECT\n    id,\n    product_type,\n    exchange,\n    symbol,\n    tick_size,\n    lot_size,\n    updated_at\nFROM reference_data\nORDER BY id ASC\n"

def selectColumns : List String :=
  ["id", "product_type", "exchange", "symbol", "tick_size", "lot_size", "updated_at"]

def fromTable : String := "reference_data"

def orderKey : String := "id"

/-- One stored reference-data row.  `id` is the integer ordering key; the
remaining fields are carried as the text that pandas' default string
coercion produces for them (the renderer only ever uses that text, and no
claim depends on numeric formatting). -/
structure RefRow where
  id : Int
  product_type : String
  exchange : String
  symbol : String
  tick_size : String
  lot_size : String
  updated_at : String

instance : DecidableRel (fun a b : RefRow => a.id ≤ b.id) :=
  fun a b => Int.decLe a.id b.id

instance : IsTotal RefRow (fun a b : RefRow => a.id ≤ b.id) :=
  ⟨fun a b => Int.le_total a.id b.id⟩

instance : IsTrans RefRow (fun a b : RefRow => a.id ≤ b.id) :=
  ⟨fun _ _ _ h1 h2 => le_trans h1 h2⟩

/-- The in-memory tabular result of `pd.read_sql_query`: the selected column
names in order, and one list of cell texts per row. -/
structure DataFrame where
  columns : List String
  rows : List (List String)

/-- `ORDER BY id ASC` over the stored table (a stable ascending sort). -/
def sortByIdAsc (t : List RefRow) : List RefRow :=
  List.insertionSort (fun a b => a.id ≤ b.id) t

/-- The projection `SELECT id, product_type, exchange, symbol, tick_size,
lot_size, updated_at`, each value coerced to its default text. -/
def projectRow (r : RefRow) : List String :=
  [toString r.id, r.product_type, r.exchange, r.symbol, r.tick_size, r.lot_size, r.updated_at]

/-- `pd.read_sql_query(query, conn)` (source line 36): the fixed
projection-and-order query materialized as a `DataFrame`. -/
def runQuery (t : List RefRow) : DataFrame :=
  ⟨selectColumns, (sortByIdAsc t).map projectRow⟩

/-! ### The renderer (source lines 42-47) -/

/-- Python's `sep.join(pieces)`. -/
def pyJoin (sep : String) : List String → String
  | [] => ""
  | [x] => x
  | x :: y :: xs => x ++ sep ++ pyJoin sep (y :: xs)

/-- `table_headers = "".join(f"<th>{col}</th>" for col in df.columns)`
(source line 42). -/
def table_headers (df : DataFrame) : String :=
  pyJoin "" (df.columns.map fun col => "<th>" ++ col ++ "</th>")

/-- `table_rows` (source lines 44-47): one `<tr>` fragment per data row, the
cells interpolated with no escaping, joined with newlines. -/
def table_rows (df : DataFrame) : String :=
  pyJoin "\n" (df.rows.map fun row =>
    "<tr>" ++ pyJoin "" (row.map fun value => "<td>" ++ value ++ "</td>") ++ "</tr>")

/-- Specification-side name for a single rendered cell. -/
def cellHtml (value : String) : String := "<td>" ++ value ++ "</td>"

/-- Specification-side name for a single rendered body row. -/
def rowHtml (row : List String) : String :=
  "<tr>" ++ pyJoin "" (row.map cellHtml) ++ "</tr>"

/-- Specification-side name for a single rendered header cell. -/
def headerCellHtml (col : String) : String := "<th>" ++ col ++ "</th>"

/-! ### The HTML template (source lines 49-134), split at the three
interpolation points `{PAGE_TITLE}` (twice), `{table_headers}` and
`{table_rows}`.  Literal braces of the CSS/JS are written `\x7b`/`\x7d`. -/

def tplA : String := "<!DOCTYPE html>\n<html lang=\"en\">\n<head>\n    <meta charset=\"UTF-8\">\n    <title>"

def tplB : String := "</title>\n\n    <!-- DataTables + jQuery -->\n    <script src=\"https://code.jquery.com/jquery-3.7.1.min.js\"></script>\n    <script src=\"https://cdn.datatables.net/1.13.8/js/jquery.dataTables.min.js\"></script>\n\n    <!-- DataTables Dark Theme -->\n    <link rel=\"stylesheet\" href=\"https://cdn.datatables.net/1.13.8/css/jquery.dataTables.min.css\">\n\n    <style>\n        body \x7b\n            background-color: #020617;\n            color: #e5e7eb;\n            font-family: system-ui, -apple-system, BlinkMacSystemFont, sans-serif;\n            margin: 40px;\n        \x7d\n\n        h1 \x7b\n            text-align: center;\n            margin-bottom: 30px;\n            font-size: 32px;\n        \x7d\n\n        table.dataTable \x7b\n            background-color: #020617;\n        \x7d\n\n        table.dataTable thead th \x7b\n            background-color: #1f2937;\n            color: white;\n        \x7d\n\n        table.dataTable tbody tr \x7b\n            background-color: #111827;\n        \x7d\n\n        table.dataTable tbody tr:hover \x7b\n            background-color: #1f2937;\n        \x7d\n\n        .dataTables_wrapper .dataTables_filter input,\n        .dataTables_wrapper .dataTables_length select \x7b\n            background-color: #020617;\n            color: #e5e7eb;\n            border: 1px solid #374151;\n        \x7d\n\n        .dataTables_wrapper .dataTables_info,\n        .dataTables_wrapper .dataTables_paginate \x7b\n            color: #9ca3af;\n        \x7d\n    </style>\n</head>\n<body>\n\n<h1>"

def tplC : String := "</h1>\n\n<table id=\"refdata\" class=\"display\" style=\"width:100%\">\n    <thead>\n        <tr>\n            "

def tplD : String := "\n        </tr>\n    </thead>\n    <tbody>\n        "

def tplE : String := "\n    </tbody>\n</table>\n\n<script>\n$(document).ready(function() \x7b\n    $(\x27#refdata\x27).DataTable(\x7b\n        order: [[0, \x27asc\x27]],   // default sort by id\n        pageLength: 25,\n        lengthMenu: [10, 25, 50, 100],\n        stateSave: true\n    \x7d);\n\x7d);\n</script>\n\n</body>\n</html>\n"

/-- The full generated page (the f-string of source lines 49-134). -/
def html (df : DataFrame) : String :=
  tplA ++ PAGE_TITLE ++ tplB ++ PAGE_TITLE ++ tplC ++ table_headers df ++ tplD ++
    table_rows df ++ tplE

/-- Everything the template emits before the first body row: the document
head and the complete header row. -/
def headerPortion (df : DataFrame) : String :=
  tplA ++ PAGE_TITLE ++ tplB ++ PAGE_TITLE ++ tplC ++ table_headers df ++ tplD

/-- `Path(HTML_FILE).write_text(html, encoding="utf-8")` writes exactly the
UTF-8 encoding of the page (source line 136). -/
def pageBytes (df : DataFrame) : ByteArray := (html df).toUTF8

/-- The encoding name passed to the write call (source line 136). -/
def writeEncoding : String := "utf-8"

/-- The charset name declared inside the generated document (source line 52). -/
def declaredCharset : String := "UTF-8"

/-- The charset declaration element of the template head. -/
def metaCharsetTag : String := "<meta charset=\"UTF-8\">"

/-- Observable side effects of the script after the data load. -/
inductive SideEffect where
  | wroteFile : String → ByteArray → SideEffect
  | startedServer : Nat → SideEffect

/-- The script's sequential control flow after `sqlite3.connect`: a failed
load (an exception out of `pd.read_sql_query`) propagates and terminates the
process before the file write (line 136) and before the server thread start
(line 150); a successful load writes the page and then starts the server. -/
def scriptRun (load : Except String (List RefRow)) : Except String (List SideEffect) :=
  match load with
  | .error e => .error e
  | .ok t =>
      .ok [SideEffect.wroteFile HTML_FILE (pageBytes (runQuery t)),
           SideEffect.startedServer PORT]

/-! ### Substring-occurrence counting machinery.

`countOcc pat l` counts the positions of `l` at which the pattern `pat`
occurs (occurrences may overlap).  It is used to state "exactly one `<tr>`
per data row" and "exactly two script / one stylesheet reference". -/

/-- Boolean test that `p` is a leading segment of `l`. -/
def isPfx : List Char → List Char → Bool
  | [], _ => true
  | _ :: _, [] => false
  | a :: as, b :: bs => a == b && isPfx as bs

/-- Number of positions of `l` at which `pat` occurs. -/
def countOcc (pat : List Char) (l : List Char) : Nat :=
  match l with
  | [] => 0
  | c :: t => (if isPfx pat (c :: t) then 1 else 0) + countOcc pat t

/-- String-level occurrence count. -/
def countOccS (pat s : String) : Nat := countOcc pat.data s.data

/-- Boolean test that `p` disagrees with `x` at some position they share. -/
def hasMismatch : List Char → List Char → Bool
  | a :: as, b :: bs => a != b || hasMismatch as bs
  | _, _ => false

/-- No nonempty proper leading segment of `pat` is a trailing segment of
`x`: an occurrence of `pat` can never start inside `x` and continue past
its end. -/
def noCross (pat x : List Char) : Prop :=
  ∀ m, m < pat.length → 0 < m → pat.take m ≠ x.drop (x.length - m)

instance (pat x : List Char) : Decidable (noCross pat x) := by
  unfold noCross; infer_instance

/-- Every nonempty proper trailing segment of `pat` disagrees with `x`
inside `x`: an occurrence of `pat` can never end inside `x` having started
before it. -/
def crossBlocked (pat x : List Char) : Prop :=
  ∀ m, m < pat.length → 0 < m → hasMismatch (pat.drop m) x = true

instance (pat x : List Char) : Decidable (crossBlocked pat x) := by
  unfold crossBlocked; infer_instance

/-- No nonempty proper trailing segment of `pat` starts the list `l`. -/
def noTailStarts (pat l : List Char) : Prop :=
  ∀ m, m < pat.length → 0 < m → ¬ pat.drop m <+: l

/-! ### The character-list views of the rendered fragments. -/

def trOpenL : List Char := "<tr>".data

def trCloseL : List Char := "</tr>".data

def tdOpenL : List Char := "<td>".data

def tdCloseL : List Char := "</td>".data

def thOpenL : List Char := "<th>".data

def thCloseL : List Char := "</th>".data

def nlL : List Char := "\n".data

/-- The cells of one row (or the header cells), as characters: each element
wrapped in the fixed open/close tags, concatenated. -/
def cellsL (op cl : List Char) : List String → List Char
  | [] => []
  | v :: vs => op ++ (v.data ++ (cl ++ cellsL op cl vs))

/-- One rendered body row, as characters. -/
def rowL (r : List String) : List Char :=
  trOpenL ++ (cellsL tdOpenL tdCloseL r ++ trCloseL)

/-- The rendered body rows joined by newlines, as characters. -/
def rowsL : List (List String) → List Char
  | [] => []
  | [r] => rowL r
  | r :: r' :: rs => rowL r ++ (nlL ++ rowsL (r' :: rs))

/-- The marker that starts each external script reference in the page. -/
def scriptRefL : List Char := "<script src=\"".data

/-- The marker that starts each external stylesheet reference in the page. -/
def linkRefL : List Char := "<link rel=\"stylesheet\"".data

/-- The two-instrument table of the specification's scenario. -/
def sampleTable : List RefRow :=
  [⟨1, "spot", "EX1", "BTCUSD", "0.01", "0.001", "2024-01-01"⟩,
   ⟨2, "future", "EX2", "ETHUSD", "0.1", "0.01", "2024-01-02"⟩]

/-- A result set whose symbol text contains the row-markup substring. -/
def trMarkupDF : DataFrame :=
  ⟨selectColumns, [["7", "spot", "EX1", "A<tr>B", "0.01", "0.001", "2024-01-01"]]⟩

/-- A result set whose symbol text contains markup-significant characters. -/
def markupDF : DataFrame :=
  ⟨selectColumns, [["7", "spot", "EX1", "A<b>&amp;", "0.01", "0.001", "2024-01-01"]]⟩

/-- A result set whose symbol text itself contains an external script
reference. -/
def scriptMarkupDF : DataFrame :=
  ⟨selectColumns,
   [["7", "spot", "EX1", "<script src=\"https://evil.example/x.js\"></script>",
     "0.01", "0.001", "2024-01-01"]]⟩

/-! ### Basic facts about `isPfx`, occurrences, and boundary crossing. -/

theorem isPfx_iff : ∀ (p l : List Char), isPfx p l = true ↔ p <+: l := by
  intro p
  induction p with
  | nil =>
    intro l
    exact iff_of_true rfl ⟨l, rfl⟩
  | cons a as ih =>
    intro l
    cases l with
    | nil =>
      constructor
      · intro h; cases h
      · rintro ⟨t, ht⟩; exact absurd ht (by simp)
    | cons b bs =>
      simp only [isPfx, Bool.and_eq_true, beq_iff_eq]
      constructor
      · rintro ⟨hab, h2⟩
        obtain ⟨t, ht⟩ := (ih bs).mp h2
        exact ⟨t, by rw [List.cons_append, hab, ht]⟩
      · rintro ⟨t, ht⟩
        rw [List.cons_append] at ht
        injection ht with h1 h2
        exact ⟨h1, (ih bs).mpr ⟨t, h2⟩⟩

theorem countOcc_cons (pat : List Char) (c : Char) (t : List Char) :
    countOcc pat (c :: t) = (if isPfx pat (c :: t) then 1 else 0) + countOcc pat t := rfl

theorem pre_append_of_pre {p a : List Char} (b : List Char) (h : p <+: a) : p <+: a ++ b := by
  obtain ⟨t, ht⟩ := h
  exact ⟨t ++ b, by rw [← List.append_assoc, ht]⟩

theorem pre_of_pre_append_of_le {p a b : List Char} (h : p <+: a ++ b)
    (hl : p.length ≤ a.length) : p <+: a := by
  obtain ⟨t, ht⟩ := h
  have h2 := congrArg (List.take p.length) ht
  rw [List.take_left, List.take_append_eq_append_take, Nat.sub_eq_zero_of_le hl,
    List.take_zero, List.append_nil] at h2
  have h3 := List.take_append_drop p.length a
  rw [← h2] at h3
  exact ⟨_, h3⟩

theorem cross_split {p a b : List Char} (h : p <+: a ++ b) (hl : a.length < p.length) :
    p.take a.length = a ∧ p.drop a.length <+: b := by
  obtain ⟨t, ht⟩ := h
  have h2 := congrArg (List.take a.length) ht
  rw [List.take_left, List.take_append_eq_append_take, Nat.sub_eq_zero_of_le (le_of_lt hl),
    List.take_zero, List.append_nil] at h2
  refine ⟨h2, t, ?_⟩
  have h3 : (p.take a.length ++ p.drop a.length) ++ t = a ++ b := by
    rw [List.take_append_drop]; exact ht
  rw [h2, List.append_assoc] at h3
  exact List.append_cancel_left h3

theorem not_pre_append_of_mismatch :
    ∀ (p x y : List Char), hasMismatch p x = true → ¬ p <+: x ++ y := by
  intro p
  induction p with
  | nil => intro x y h; cases (by simp [hasMismatch] at h : False)
  | cons a as ih =>
    intro x y h
    cases x with
    | nil => simp [hasMismatch] at h
    | cons b bs =>
      intro hpre
      obtain ⟨t, ht⟩ := hpre
      rw [List.cons_append, List.cons_append] at ht
      injection ht with h1 h2
      simp only [hasMismatch, Bool.or_eq_true, bne_iff_ne] at h
      rcases h with hne | hmm
      · exact hne h1
      · exact ih bs y hmm ⟨t, h2⟩

theorem noTailStarts_append {pat x : List Char} (y : List Char) (h : crossBlocked pat x) :
    noTailStarts pat (x ++ y) :=
  fun m hm hm0 => not_pre_append_of_mismatch _ x y (h m hm hm0)

theorem noTailStarts_of_crossBlocked {pat x : List Char} (h : crossBlocked pat x) :
    noTailStarts pat x := by
  intro m hm hm0 hp
  exact not_pre_append_of_mismatch _ x [] (h m hm hm0) (by rwa [List.append_nil])

theorem countOcc_append_left (pat : List Char) :
    ∀ (x : List Char), noCross pat x →
      ∀ (l : List Char), countOcc pat (x ++ l) = countOcc pat x + countOcc pat l := by
  intro x
  induction x with
  | nil => intro _ l; simp [countOcc]
  | cons c x' ih =>
    intro hnc l
    have hnc' : noCross pat x' := by
      intro m hm hm0
      by_cases hle : m ≤ x'.length
      · have hdrop : (c :: x').drop ((c :: x').length - m) = x'.drop (x'.length - m) := by
          have h1 : (c :: x').length - m = (x'.length - m) + 1 := by
            simp only [List.length_cons]; omega
          rw [h1, List.drop_succ_cons]
        have h2 := hnc m hm hm0
        rw [hdrop] at h2
        exact h2
      · intro heq
        have h1 : (pat.take m).length = m := by
          rw [List.length_take]; omega
        have h2 : (x'.drop (x'.length - m)).length ≤ x'.length := by
          rw [List.length_drop]; omega
        rw [heq] at h1
        omega
    have hiff : isPfx pat (c :: (x' ++ l)) = isPfx pat (c :: x') := by
      by_cases hp : pat <+: (c :: x')
      · rw [(isPfx_iff _ _).mpr hp,
          (isPfx_iff _ _).mpr (by rw [← List.cons_append]; exact pre_append_of_pre l hp)]
      · have hp2 : ¬ pat <+: c :: (x' ++ l) := by
          intro hcon
          rw [← List.cons_append] at hcon
          by_cases hlen : pat.length ≤ (c :: x').length
          · exact hp (pre_of_pre_append_of_le hcon hlen)
          · push_neg at hlen
            obtain ⟨htake, _⟩ := cross_split hcon hlen
            have h2 := hnc (c :: x').length hlen (by simp)
            rw [Nat.sub_self, List.drop_zero] at h2
            exact h2 htake
        cases h1 : isPfx pat (c :: (x' ++ l)) with
        | false =>
          cases h2 : isPfx pat (c :: x') with
          | false => rfl
          | true => exact absurd ((isPfx_iff _ _).mp h2) hp
        | true => exact absurd ((isPfx_iff _ _).mp h1) hp2
    rw [List.cons_append, countOcc_cons, countOcc_cons, hiff, ih hnc' l]
    omega

theorem countOcc_append_zero_left (pat : List Char) :
    ∀ (v : List Char), countOcc pat v = 0 →
      ∀ (l : List Char), noTailStarts pat l → countOcc pat (v ++ l) = countOcc pat l := by
  intro v
  induction v with
  | nil => intro _ l _; rfl
  | cons c v' ih =>
    intro hv l hl
    rw [countOcc_cons] at hv
    have hif : isPfx pat (c :: v') = false := by
      cases h' : isPfx pat (c :: v') with
      | false => rfl
      | true => rw [h'] at hv; simp at hv
    have hv' : countOcc pat v' = 0 := by
      rw [hif] at hv; simpa using hv
    have hnp : ¬ pat <+: (c :: v') := fun hcon => by
      rw [(isPfx_iff _ _).mpr hcon] at hif; cases hif
    have hnp2 : isPfx pat (c :: (v' ++ l)) = false := by
      cases h' : isPfx pat (c :: (v' ++ l)) with
      | false => rfl
      | true =>
        exfalso
        have hcon : pat <+: (c :: v') ++ l := by
          rw [List.cons_append]; exact (isPfx_iff _ _).mp h'
        by_cases hlen : pat.length ≤ (c :: v').length
        · exact hnp (pre_of_pre_append_of_le hcon hlen)
        · push_neg at hlen
          obtain ⟨_, hdropp⟩ := cross_split hcon hlen
          exact hl (c :: v').length hlen (by simp) hdropp
    rw [List.cons_append, countOcc_cons, hnp2, ih hv' l hl]
    simp

/-! ### Occurrence counts through the rendered joins. -/

theorem countOcc_cellsL (pat op cl : List Char)
    (hop1 : noCross pat op) (hop2 : countOcc pat op = 0)
    (hcl1 : crossBlocked pat cl) (hcl2 : noCross pat cl) (hcl3 : countOcc pat cl = 0) :
    ∀ (xs : List String) (l : List Char), (∀ v ∈ xs, countOcc pat v.data = 0) →
      countOcc pat (cellsL op cl xs ++ l) = countOcc pat l := by
  intro xs
  induction xs with
  | nil => intro l _; rfl
  | cons v vs ih =>
    intro l hv
    have e : cellsL op cl (v :: vs) ++ l = op ++ (v.data ++ (cl ++ (cellsL op cl vs ++ l))) := by
      simp [cellsL, List.append_assoc]
    rw [e, countOcc_append_left pat op hop1, hop2,
      countOcc_append_zero_left pat v.data (hv v (by simp)) _ (noTailStarts_append _ hcl1),
      countOcc_append_left pat cl hcl2, hcl3,
      ih l (fun u hu => hv u (by simp [hu]))]
    omega

theorem countOcc_tr_rowL (r : List String) (hv : ∀ v ∈ r, countOcc trOpenL v.data = 0)
    (l : List Char) : countOcc trOpenL (rowL r ++ l) = 1 + countOcc trOpenL l := by
  have e : rowL r ++ l =
      trOpenL ++ (cellsL tdOpenL tdCloseL r ++ (trCloseL ++ l)) := by
    simp [rowL, List.append_assoc]
  rw [e, countOcc_append_left trOpenL trOpenL (by decide),
    countOcc_cellsL trOpenL tdOpenL tdCloseL (by decide) (by decide) (by decide) (by decide)
      (by decide) r _ hv,
    countOcc_append_left trOpenL trCloseL (by decide)]
  have h1 : countOcc trOpenL trOpenL = 1 := by decide
  have h2 : countOcc trOpenL trCloseL = 0 := by decide
  omega

theorem countOcc_tr_rowsL :
    ∀ (rows : List (List String)), (∀ r ∈ rows, ∀ v ∈ r, countOcc trOpenL v.data = 0) →
      countOcc trOpenL (rowsL rows) = rows.length := by
  intro rows
  induction rows with
  | nil => intro _; rfl
  | cons r rs ih =>
    intro h
    cases rs with
    | nil =>
      have h1 := countOcc_tr_rowL r (h r (by simp)) []
      rw [List.append_nil] at h1
      simpa [rowsL] using h1
    | cons r' rs' =>
      have e : rowsL (r :: r' :: rs') = rowL r ++ (nlL ++ rowsL (r' :: rs')) := rfl
      rw [e, countOcc_tr_rowL r (h r (by simp)) _,
        countOcc_append_left trOpenL nlL (by decide)]
      have h2 : countOcc trOpenL nlL = 0 := by decide
      have h3 := ih (fun a ha v hv => h a (by simp [ha]) v hv)
      simp [h2, h3, List.length_cons]
      omega

theorem countOcc_rowL_zero (pat : List Char)
    (h1 : noCross pat trOpenL) (h2 : countOcc pat trOpenL = 0)
    (h3 : noCross pat tdOpenL) (h4 : countOcc pat tdOpenL = 0)
    (h5 : crossBlocked pat tdCloseL) (h6 : noCross pat tdCloseL) (h7 : countOcc pat tdCloseL = 0)
    (h8 : noCross pat trCloseL) (h9 : countOcc pat trCloseL = 0)
    (r : List String) (hv : ∀ v ∈ r, countOcc pat v.data = 0) (l : List Char) :
    countOcc pat (rowL r ++ l) = countOcc pat l := by
  have e : rowL r ++ l =
      trOpenL ++ (cellsL tdOpenL tdCloseL r ++ (trCloseL ++ l)) := by
    simp [rowL, List.append_assoc]
  rw [e, countOcc_append_left pat trOpenL h1, h2,
    countOcc_cellsL pat tdOpenL tdCloseL h3 h4 h5 h6 h7 r _ hv,
    countOcc_append_left pat trCloseL h8, h9]
  omega

theorem countOcc_rowsL_zero (pat : List Char)
    (h1 : noCross pat trOpenL) (h2 : countOcc pat trOpenL = 0)
    (h3 : noCross pat tdOpenL) (h4 : countOcc pat tdOpenL = 0)
    (h5 : crossBlocked pat tdCloseL) (h6 : noCross pat tdCloseL) (h7 : countOcc pat tdCloseL = 0)
    (h8 : noCross pat trCloseL) (h9 : countOcc pat trCloseL = 0)
    (h10 : noCross pat nlL) (h11 : countOcc pat nlL = 0) :
    ∀ (rows : List (List String)) (l : List Char),
      (∀ r ∈ rows, ∀ v ∈ r, countOcc pat v.data = 0) →
      countOcc pat (rowsL rows ++ l) = countOcc pat l := by
  intro rows
  induction rows with
  | nil => intro l _; rfl
  | cons r rs ih =>
    intro l h
    cases rs with
    | nil =>
      have e : rowsL [r] ++ l = rowL r ++ l := rfl
      rw [e, countOcc_rowL_zero pat h1 h2 h3 h4 h5 h6 h7 h8 h9 r (h r (by simp)) l]
    | cons r' rs' =>
      have e : rowsL (r :: r' :: rs') ++ l = rowL r ++ (nlL ++ (rowsL (r' :: rs') ++ l)) := by
        show (rowL r ++ (nlL ++ rowsL (r' :: rs'))) ++ l = _
        simp [List.append_assoc]
      rw [e, countOcc_rowL_zero pat h1 h2 h3 h4 h5 h6 h7 h8 h9 r (h r (by simp)) _,
        countOcc_append_left pat nlL h10, h11,
        ih _ (fun a ha v hv => h a (by simp [ha]) v hv)]
      omega

/-! ### Character-list views of the rendered strings. -/

theorem data_nil : ("" : String).data = [] := rfl

theorem tagJoin_data (opS clS : String) :
    ∀ (xs : List String),
      (pyJoin "" (xs.map fun v => opS ++ v ++ clS)).data = cellsL opS.data clS.data xs := by
  intro xs
  induction xs with
  | nil => rfl
  | cons v vs ih =>
    cases vs with
    | nil =>
      simp [pyJoin, cellsL, String.data_append]
    | cons w ws =>
      simp only [List.map_cons] at ih ⊢
      simp only [pyJoin, String.data_append, data_nil, List.append_nil] at ih ⊢
      rw [ih]
      simp [cellsL, List.append_assoc]

theorem rowHtml_data (r : List String) : (rowHtml r).data = rowL r := by
  have h := tagJoin_data "<td>" "</td>" r
  show (("<tr>" ++ pyJoin "" (r.map fun v => "<td>" ++ v ++ "</td>")) ++ "</tr>").data = rowL r
  simp only [String.data_append, h, rowL, List.append_assoc]
  rfl

theorem rows_join_data :
    ∀ (rows : List (List String)), (pyJoin "\n" (rows.map rowHtml)).data = rowsL rows := by
  intro rows
  induction rows with
  | nil => rfl
  | cons r rs ih =>
    cases rs with
    | nil =>
      show (rowHtml r).data = rowsL [r]
      rw [rowHtml_data]
      rfl
    | cons r' rs' =>
      simp only [List.map_cons] at ih ⊢
      simp only [pyJoin, String.data_append] at ih ⊢
      rw [ih, rowHtml_data]
      show (rowL r ++ "\n".data) ++ rowsL (r' :: rs') = rowL r ++ (nlL ++ rowsL (r' :: rs'))
      simp [List.append_assoc]
      rfl

theorem table_headers_data (df : DataFrame) :
    (table_headers df).data = cellsL thOpenL thCloseL df.columns :=
  tagJoin_data "<th>" "</th>" df.columns

theorem table_rows_data (df : DataFrame) : (table_rows df).data = rowsL df.rows :=
  rows_join_data df.rows

theorem table_rows_eq_join_rowHtml (df : DataFrame) :
    table_rows df = pyJoin "\n" (df.rows.map rowHtml) := rfl

theorem html_data (df : DataFrame) : (html df).data =
    tplA.data ++ (PAGE_TITLE.data ++ (tplB.data ++ (PAGE_TITLE.data ++ (tplC.data ++
      ((table_headers df).data ++ (tplD.data ++ ((table_rows df).data ++ tplE.data))))))) := by
  simp [html, String.data_append, List.append_assoc]

/-! ### Embedding fragments inside the rendered page. -/

theorem str_ext {a b : String} (h : a.data = b.data) : a = b := by
  cases a; cases b; exact congrArg String.mk h

theorem inf_appR {z b : List Char} (a : List Char) (h : z <:+: b) : z <:+: a ++ b := by
  obtain ⟨s, t, hst⟩ := h
  exact ⟨a ++ s, t, by rw [← hst]; simp [List.append_assoc]⟩

theorem inf_appL {z a : List Char} (b : List Char) (h : z <:+: a) : z <:+: a ++ b := by
  obtain ⟨s, t, hst⟩ := h
  exact ⟨s, t ++ b, by rw [← hst]; simp [List.append_assoc]⟩

theorem inf_self_appL (z b : List Char) : z <:+: z ++ b := ⟨[], b, by simp⟩

theorem suf_appR {z b : List Char} (a : List Char) (h : z <:+ b) : z <:+ a ++ b := by
  obtain ⟨s, hs⟩ := h
  exact ⟨a ++ s, by rw [← hs]; simp [List.append_assoc]⟩

theorem frag_in_cellsL (op cl : List Char) {v : String} :
    ∀ {xs : List String}, v ∈ xs → (op ++ (v.data ++ cl)) <:+: cellsL op cl xs := by
  intro xs
  induction xs with
  | nil => intro h; cases h
  | cons w ws ih =>
    intro h
    rcases List.mem_cons.mp h with rfl | hmem
    · refine ⟨[], cellsL op cl ws, ?_⟩
      simp [cellsL, List.append_assoc]
    · have h2 := ih hmem
      show (op ++ (v.data ++ cl)) <:+: op ++ (w.data ++ (cl ++ cellsL op cl ws))
      exact inf_appR op (inf_appR w.data (inf_appR cl h2))

theorem frag_in_rowL {v : String} {r : List String} (hv : v ∈ r) :
    (tdOpenL ++ (v.data ++ tdCloseL)) <:+: rowL r := by
  show _ <:+: trOpenL ++ (cellsL tdOpenL tdCloseL r ++ trCloseL)
  exact inf_appR trOpenL (inf_appL trCloseL (frag_in_cellsL tdOpenL tdCloseL hv))

theorem rowL_in_rowsL {r : List String} :
    ∀ {rows : List (List String)}, r ∈ rows → rowL r <:+: rowsL rows := by
  intro rows
  induction rows with
  | nil => intro h; cases h
  | cons a rs ih =>
    intro h
    rcases List.mem_cons.mp h with rfl | hmem
    · cases rs with
      | nil => exact ⟨[], [], by simp [rowsL]⟩
      | cons b rs' =>
        show rowL r <:+: rowL r ++ (nlL ++ rowsL (b :: rs'))
        exact inf_self_appL _ _
    · cases rs with
      | nil => cases hmem
      | cons b rs' =>
        show rowL r <:+: rowL a ++ (nlL ++ rowsL (b :: rs'))
        exact inf_appR (rowL a) (inf_appR nlL (ih hmem))

theorem headers_in_html (df : DataFrame) :
    (table_headers df).data <:+: (html df).data := by
  rw [html_data]
  exact inf_appR _ (inf_appR _ (inf_appR _ (inf_appR _ (inf_appR _ (inf_self_appL _ _)))))

/-! ### The claims. -/

/-- C1 counterexample: a result set whose symbol value contains the literal
substring `<tr>` makes the rendered body contain two `<tr>` occurrences for
its single data row, so "exactly one body row (`<tr>`) per data row" fails
for this result set. -/
theorem tr_markup_breaks_row_count :
    countOccS "<tr>" (table_rows trMarkupDF) = 2 ∧ trMarkupDF.rows.length = 1 :=
  ⟨by decide, rfl⟩

/-- C1 (amended): for every result set, the rendered body is the
newline-join of one rendered-row fragment per data row, with as many
fragments as data rows, the i-th fragment rendering the i-th row (the
renderer maps over the rows in order and never re-sorts); and whenever the
cell texts do not contain the substring `<tr>`, the body contains exactly
one `<tr>` occurrence per data row. -/
theorem body_rows_count_and_order (df : DataFrame) :
    table_rows df = pyJoin "\n" (df.rows.map rowHtml) ∧
    (df.rows.map rowHtml).length = df.rows.length ∧
    (∀ i : Nat, (df.rows.map rowHtml)[i]? = df.rows[i]?.map rowHtml) ∧
    ((∀ r ∈ df.rows, ∀ v ∈ r, countOccS "<tr>" v = 0) →
      countOccS "<tr>" (table_rows df) = df.rows.length) := by
  refine ⟨rfl, List.length_map df.rows rowHtml,
    fun i => List.getElem?_map rowHtml df.rows i, fun h => ?_⟩
  show countOcc "<tr>".data (table_rows df).data = df.rows.length
  rw [table_rows_data]
  exact countOcc_tr_rowsL df.rows h

/-- Witness for C1: the two-row scenario table renders exactly two body
rows. -/
theorem body_rows_count_and_order_witness :
    (∀ r ∈ (runQuery sampleTable).rows, ∀ v ∈ r, countOccS "<tr>" v = 0) ∧
    countOccS "<tr>" (table_rows (runQuery sampleTable)) = (runQuery sampleTable).rows.length :=
  ⟨by decide, (body_rows_count_and_order (runQuery sampleTable)).2.2.2 (by decide)⟩

/-- C2: each cell is exactly `<td>` ++ value ++ `</td>` — the value's text
inserted verbatim with no HTML-escaping — and both the cell and the raw
value text occur verbatim inside the rendered body. -/
theorem cell_values_inserted_unescaped (df : DataFrame) (row : List String) (v : String)
    (hr : row ∈ df.rows) (hv : v ∈ row) :
    cellHtml v = "<td>" ++ v ++ "</td>" ∧
    (cellHtml v).data <:+: (table_rows df).data ∧
    v.data <:+: (table_rows df).data := by
  have hcell : (cellHtml v).data = tdOpenL ++ (v.data ++ tdCloseL) := by
    simp [cellHtml, String.data_append, tdOpenL, tdCloseL, List.append_assoc]
  refine ⟨rfl, ?_, ?_⟩
  · rw [table_rows_data, hcell]
    exact List.IsInfix.trans (frag_in_rowL hv) (rowL_in_rowsL hr)
  · rw [table_rows_data]
    refine List.IsInfix.trans ?_ (List.IsInfix.trans (frag_in_rowL hv) (rowL_in_rowsL hr))
    exact ⟨tdOpenL, tdCloseL, by simp [List.append_assoc]⟩

/-- Witness for C2: a value containing markup-significant characters
(`<`, `&`) appears unescaped, verbatim, in the rendered body. -/
theorem cell_values_inserted_unescaped_witness :
    (["7", "spot", "EX1", "A<b>&amp;", "0.01", "0.001", "2024-01-01"] ∈ markupDF.rows) ∧
    ("A<b>&amp;" ∈ ["7", "spot", "EX1", "A<b>&amp;", "0.01", "0.001", "2024-01-01"]) ∧
    ("A<b>&amp;" : String).data <:+: (table_rows markupDF).data :=
  ⟨by decide, by decide,
    (cell_values_inserted_unescaped markupDF
      ["7", "spot", "EX1", "A<b>&amp;", "0.01", "0.001", "2024-01-01"] "A<b>&amp;"
      (by decide) (by decide)).2.2⟩

/-- C3: the loaded frame's columns are exactly the seven requested names in
the requested order, and the header row renders them verbatim, in order,
one `<th>` cell each. -/
theorem header_row_matches_query_columns (t : List RefRow) :
    (runQuery t).columns = selectColumns ∧
    selectColumns = ["id", "product_type", "exchange", "symbol", "tick_size", "lot_size",
      "updated_at"] ∧
    table_headers (runQuery t) = pyJoin "" (selectColumns.map headerCellHtml) ∧
    table_headers (runQuery t) =
      "<th>id</th><th>product_type</th><th>exchange</th><th>symbol</th><th>tick_size</th><th>lot_size</th><th>updated_at</th>" :=
  ⟨rfl, rfl, rfl, rfl⟩

/-- C4: the load+render step is a pure function of the underlying table
contents: equal tables give byte-identical output files. -/
theorem load_render_deterministic (t₁ t₂ : List RefRow) (h : t₁ = t₂) :
    pageBytes (runQuery t₁) = pageBytes (runQuery t₂) ∧
    scriptRun (Except.ok t₁) = scriptRun (Except.ok t₂) := by
  subst h
  exact ⟨rfl, rfl⟩

/-- Witness for C4: two runs over the scenario table agree. -/
theorem load_render_deterministic_witness :
    pageBytes (runQuery sampleTable) = pageBytes (runQuery sampleTable) ∧
    scriptRun (Except.ok sampleTable) = scriptRun (Except.ok sampleTable) :=
  load_render_deterministic sampleTable sampleTable rfl

/-- C5: an empty result set still yields a complete document — it starts
with the doctype, ends with the closing html tag, contains the full
seven-column header row, and has zero body rows. -/
theorem empty_result_complete_page :
    (runQuery []).rows = [] ∧
    table_rows (runQuery []) = "" ∧
    table_headers (runQuery []) =
      "<th>id</th><th>product_type</th><th>exchange</th><th>symbol</th><th>tick_size</th><th>lot_size</th><th>updated_at</th>" ∧
    "<!DOCTYPE html>".data <+: (html (runQuery [])).data ∧
    "</html>\n".data <:+ (html (runQuery [])).data ∧
    (table_headers (runQuery [])).data <:+: (html (runQuery [])).data := by
  refine ⟨rfl, rfl, rfl, ?_, ?_, headers_in_html _⟩
  · rw [html_data]
    apply pre_append_of_pre
    have h : "<!DOCTYPE html>" ++
        "\n<html lang=\"en\">\n<head>\n    <meta charset=\"UTF-8\">\n    <title>" = tplA := rfl
    exact ⟨("\n<html lang=\"en\">\n<head>\n    <meta charset=\"UTF-8\">\n    <title>").data,
      by rw [← String.data_append, h]⟩
  · rw [html_data]
    apply suf_appR
    apply suf_appR
    apply suf_appR
    apply suf_appR
    apply suf_appR
    apply suf_appR
    apply suf_appR
    apply suf_appR
    have h : "\n    </tbody>\n</table>\n\n<script>\n$(document).ready(function() \x7b\n    $(\x27#refdata\x27).DataTable(\x7b\n        order: [[0, \x27asc\x27]],   // default sort by id\n        pageLength: 25,\n        lengthMenu: [10, 25, 50, 100],\n        stateSave: true\n    \x7d);\n\x7d);\n</script>\n\n</body>\n" ++
        "</html>\n" = tplE := rfl
    exact ⟨("\n    </tbody>\n</table>\n\n<script>\n$(document).ready(function() \x7b\n    $(\x27#refdata\x27).DataTable(\x7b\n        order: [[0, \x27asc\x27]],   // default sort by id\n        pageLength: 25,\n        lengthMenu: [10, 25, 50, 100],\n        stateSave: true\n    \x7d);\n\x7d);\n</script>\n\n</body>\n").data,
      by rw [← String.data_append, h]⟩

/-- C6: a failed store connection or query propagates as an error: the run
produces no side effects at all — in particular no file write and no server
start — while a successful load writes the page first and starts the server
second. -/
theorem load_failure_no_write_no_server (e : String) :
    scriptRun (Except.error e) = Except.error e ∧
    ∀ t : List RefRow, scriptRun (Except.ok t) =
      Except.ok [SideEffect.wroteFile HTML_FILE (pageBytes (runQuery t)),
                 SideEffect.startedServer PORT] :=
  ⟨rfl, fun _ => rfl⟩

/-- C7: the query is the one fixed read-only projection of the seven named
columns from `reference_data` ordered ascending by `id`; `runQuery` returns
the projected rows sorted ascending by `id` (a permutation of the table);
and the configuration surface is the four hardcoded constants. -/
theorem fixed_query_and_config :
    query = "\nSELECT\n    " ++ pyJoin ",\n    " selectColumns ++ "\nFROM " ++ fromTable ++
      "\nORDER BY " ++ orderKey ++ " ASC\n" ∧
    selectColumns = ["id", "product_type", "exchange", "symbol", "tick_size", "lot_size",
      "updated_at"] ∧
    fromTable = "reference_data" ∧ orderKey = "id" ∧
    (∀ t : List RefRow, (runQuery t).columns = selectColumns) ∧
    (∀ t : List RefRow, (runQuery t).rows = (sortByIdAsc t).map projectRow) ∧
    (∀ t : List RefRow, List.Sorted (· ≤ ·) ((sortByIdAsc t).map RefRow.id)) ∧
    (∀ t : List RefRow, List.Perm (sortByIdAsc t) t) ∧
    DB_PATH = "crypto_refdata.db" ∧ PORT = 5555 ∧ HTML_FILE = "reference_data.html" ∧
    PAGE_TITLE = "Crypto Reference Data" := by
  refine ⟨rfl, rfl, rfl, rfl, fun t => rfl, fun t => rfl, ?_, ?_, rfl, rfl, rfl, rfl⟩
  · intro t
    show ((sortByIdAsc t).map RefRow.id).Pairwise (· ≤ ·)
    rw [List.pairwise_map]
    exact List.sorted_insertionSort (fun a b : RefRow => a.id ≤ b.id) t
  · intro t
    exact List.perm_insertionSort _ t

/-- C9: the file write encodes the page as UTF-8, and the charset declared
by the document's meta element is the same encoding (up to the
case-insensitivity of charset names) as the one used for the write. -/
theorem utf8_write_matches_declared_charset (df : DataFrame) :
    pageBytes df = (html df).toUTF8 ∧
    metaCharsetTag = "<meta charset=\"" ++ declaredCharset ++ "\">" ∧
    metaCharsetTag.data <:+: (html df).data ∧
    declaredCharset.data.map Char.toLower = writeEncoding.data := by
  refine ⟨rfl, rfl, ?_, by decide⟩
  rw [html_data]
  apply inf_appL
  have h : "<!DOCTYPE html>\n<html lang=\"en\">\n<head>\n    " ++ metaCharsetTag ++
      "\n    <title>" = tplA := rfl
  exact ⟨("<!DOCTYPE html>\n<html lang=\"en\">\n<head>\n    ").data, ("\n    <title>").data,
    by rw [← String.data_append, ← String.data_append, h]⟩

/-- C10: the rendered header portion of the page depends only on the column
names: two result sets with the same columns produce identical header
portions, and the page is exactly the header portion followed by the body
rows and the tail of the template. -/
theorem header_depends_only_on_columns (df₁ df₂ : DataFrame)
    (h : df₁.columns = df₂.columns) :
    headerPortion df₁ = headerPortion df₂ ∧
    html df₁ = headerPortion df₁ ++ (table_rows df₁ ++ tplE) ∧
    html df₂ = headerPortion df₂ ++ (table_rows df₂ ++ tplE) := by
  refine ⟨?_, ?_, ?_⟩
  · unfold headerPortion table_headers
    rw [h]
  · apply str_ext
    simp [html, headerPortion, String.data_append, List.append_assoc]
  · apply str_ext
    simp [html, headerPortion, String.data_append, List.append_assoc]

/-- Witness for C10: the empty result set and the scenario result set have
the same columns and get identical header portions. -/
theorem header_depends_only_on_columns_witness :
    (runQuery []).columns = (runQuery sampleTable).columns ∧
    headerPortion (runQuery []) = headerPortion (runQuery sampleTable) :=
  ⟨rfl, (header_depends_only_on_columns (runQuery []) (runQuery sampleTable) rfl).1⟩

/-- C8 counterexample: a result set whose symbol value itself contains an
external script reference makes the generated document embed three
occurrences of the script-reference markup rather than exactly two, for a
single-row result set. -/
theorem script_markup_inflates_reference_count :
    countOccS "<script src=\"" (html scriptMarkupDF) = 3 ∧
    scriptMarkupDF.rows.length = 1 := by
  constructor
  · show countOcc scriptRefL (html scriptMarkupDF).data = 3
    rw [html_data, table_headers_data, table_rows_data,
      countOcc_append_left scriptRefL tplA.data (by decide),
      countOcc_append_left scriptRefL PAGE_TITLE.data (by decide),
      countOcc_append_left scriptRefL tplB.data (by decide),
      countOcc_append_left scriptRefL PAGE_TITLE.data (by decide),
      countOcc_append_left scriptRefL tplC.data (by decide),
      countOcc_append_left scriptRefL (cellsL thOpenL thCloseL scriptMarkupDF.columns)
        (by decide),
      countOcc_append_left scriptRefL tplD.data (by decide),
      countOcc_append_left scriptRefL (rowsL scriptMarkupDF.rows) (by decide)]
    decide
  · rfl

/-- C8 (amended): for every result set whose column titles and cell texts
do not themselves contain the script-reference or stylesheet-reference
markup, the generated document embeds exactly two external script
references and exactly one external stylesheet reference (both counted by
their fixed markup, which the template contains only in its head). -/
theorem external_asset_reference_counts (df : DataFrame)
    (hc : ∀ c ∈ df.columns, countOccS "<script src=\"" c = 0 ∧
      countOccS "<link rel=\"stylesheet\"" c = 0)
    (hv : ∀ r ∈ df.rows, ∀ v ∈ r, countOccS "<script src=\"" v = 0 ∧
      countOccS "<link rel=\"stylesheet\"" v = 0) :
    countOccS "<script src=\"" (html df) = 2 ∧
    countOccS "<link rel=\"stylesheet\"" (html df) = 1 := by
  constructor
  · show countOcc scriptRefL (html df).data = 2
    rw [html_data, table_headers_data, table_rows_data,
      countOcc_append_left scriptRefL tplA.data (by decide),
      countOcc_append_left scriptRefL PAGE_TITLE.data (by decide),
      countOcc_append_left scriptRefL tplB.data (by decide),
      countOcc_append_left scriptRefL PAGE_TITLE.data (by decide),
      countOcc_append_left scriptRefL tplC.data (by decide),
      countOcc_cellsL scriptRefL thOpenL thCloseL (by decide) (by decide) (by decide)
        (by decide) (by decide) df.columns _ (fun c hcc => (hc c hcc).1),
      countOcc_append_left scriptRefL tplD.data (by decide),
      countOcc_rowsL_zero scriptRefL (by decide) (by decide) (by decide) (by decide)
        (by decide) (by decide) (by decide) (by decide) (by decide) (by decide) (by decide)
        df.rows _ (fun r hr v hvv => (hv r hr v hvv).1)]
    decide
  · show countOcc linkRefL (html df).data = 1
    rw [html_data, table_headers_data, table_rows_data,
      countOcc_append_left linkRefL tplA.data (by decide),
      countOcc_append_left linkRefL PAGE_TITLE.data (by decide),
      countOcc_append_left linkRefL tplB.data (by decide),
      countOcc_append_left linkRefL PAGE_TITLE.data (by decide),
      countOcc_append_left linkRefL tplC.data (by decide),
      countOcc_cellsL linkRefL thOpenL thCloseL (by decide) (by decide) (by decide)
        (by decide) (by decide) df.columns _ (fun c hcc => (hc c hcc).2),
      countOcc_append_left linkRefL tplD.data (by decide),
      countOcc_rowsL_zero linkRefL (by decide) (by decide) (by decide) (by decide)
        (by decide) (by decide) (by decide) (by decide) (by decide) (by decide) (by decide)
        df.rows _ (fun r hr v hvv => (hv r hr v hvv).2)]
    decide

/-- Witness for C8: the scenario table's page has exactly two script
references and one stylesheet reference. -/
theorem external_asset_reference_counts_witness :
    (∀ c ∈ (runQuery sampleTable).columns, countOccS "<script src=\"" c = 0 ∧
      countOccS "<link rel=\"stylesheet\"" c = 0) ∧
    countOccS "<script src=\"" (html (runQuery sampleTable)) = 2 ∧
    countOccS "<link rel=\"stylesheet\"" (html (runQuery sampleTable)) = 1 :=
  ⟨by decide,
    external_asset_reference_counts (runQuery sampleTable) (by decide) (by decide)⟩
